import Mathlib

/-!
Shallow embedding of `src/xmlvalidator.py` (class `XMLValidator`): archive
validation, extraction, XML-file discovery, timestamp recovery, file reading,
cleanup, and the `process_zip` workflow.  Filesystem and zip-library effects
are modelled by explicit oracle structures (`FS`, `World`); every method of
the class becomes a total Lean function over those oracles, translated
line by line from the Python source.
-/

namespace XMLVal

/-- A `(year, month, day, hour, minute, second)` tuple, as stored in
`ZipInfo.date_time` and as produced by `datetime.fromtimestamp`. -/
structure DateTime6 where
  year : Nat
  month : Nat
  day : Nat
  hour : Nat
  minute : Nat
  second : Nat
deriving Repr, DecidableEq

/-- Gregorian leap-year rule, as used by Python `datetime`. -/
def isLeapYear (y : Nat) : Bool :=
  (y % 4 == 0 && y % 100 != 0) || (y % 400 == 0)

/-- Number of days in a month, as used by Python `datetime`. -/
def daysInMonth (y m : Nat) : Nat :=
  if m == 2 then (if isLeapYear y then 29 else 28)
  else if m == 4 || m == 6 || m == 9 || m == 11 then 30
  else 31

/-- `datetime(*t)` succeeds exactly when all fields are in range
(`MINYEAR = 1`, `MAXYEAR = 9999`); otherwise it raises `ValueError`,
which line 140 of the source catches. -/
def validDateTime (t : DateTime6) : Bool :=
  1 ≤ t.year && t.year ≤ 9999 &&
  1 ≤ t.month && t.month ≤ 12 &&
  1 ≤ t.day && t.day ≤ daysInMonth t.year t.month &&
  t.hour < 24 && t.minute < 60 && t.second < 60

/-- Zero-pad a number to two digits, as `%m %d %H %M %S` do in `strftime`. -/
def pad2 (n : Nat) : String :=
  if n < 10 then "0" ++ toString n else toString n

/-- `dt.strftime('%Y-%m-%d %H:%M:%S')`.  Years reachable here (from zip
headers, hence at least 1980, or from `fromtimestamp`) have four digits. -/
def fmtDateTime (t : DateTime6) : String :=
  toString t.year ++ "-" ++ pad2 t.month ++ "-" ++ pad2 t.day ++ " " ++
  pad2 t.hour ++ ":" ++ pad2 t.minute ++ ":" ++ pad2 t.second

/-- `s.endswith p` on strings as sequences of code points (structural, so
that the kernel can evaluate it on literals). -/
def strEndsWith (s p : String) : Bool := p.data.isSuffixOf s.data

/-- `s.startswith p` on strings as sequences of code points. -/
def strStartsWith (s p : String) : Bool := p.data.isPrefixOf s.data

/-- `s.lower()`, modelled on ASCII letters (the only case relevant to the
literal `.xml` suffix compared against it). -/
def strToLower (s : String) : String := String.mk (s.data.map Char.toLower)

/-- `os.path.join a b` for a relative `b` (POSIX). -/
def joinPath (a b : String) : String := a ++ "/" ++ b

/-- The characters after the last `/` of a character list. -/
def basenameChars (acc : List Char) : List Char → List Char
  | [] => acc.reverse
  | c :: cs => if c == '/' then basenameChars [] cs else basenameChars (c :: acc) cs

/-- `os.path.basename`: the part after the last slash. -/
def basename (p : String) : String := String.mk (basenameChars [] p.data)

/-- `entry_name.replace('\\', '/')` — path normalization used at
lines 123-124 of the source. -/
def normalizePath (s : String) : String :=
  String.mk (s.data.map (fun c => if c == '\\' then '/' else c))

/-- `os.path.relpath path folder` for the only use in the source, where
`path` lies strictly below `folder`: strip the `folder ++ "/"` prefix. -/
def relpath (path folder : String) : String :=
  if strStartsWith path (folder ++ "/") then
    String.mk (path.data.drop (folder.data.length + 1))
  else path

/-- One member of a zip archive: its stored name and date_time tuple. -/
structure ZipEntry where
  filename : String
  date_time : DateTime6
deriving Repr, DecidableEq

/-- A readable zip archive: its members in archive (listing) order. -/
structure ZipFile where
  entries : List ZipEntry
deriving Repr, DecidableEq

/-- `zip_ref.namelist()`: entry names in archive order. -/
def ZipFile.namelist (z : ZipFile) : List String :=
  z.entries.map (fun e => e.filename)

/-- `zip_ref.getinfo name`.  `NameToInfo` maps each name to its last
occurrence (later duplicates overwrite earlier ones in the dict), and a
missing name raises `KeyError`, modelled as `none`. -/
def ZipFile.getinfo (z : ZipFile) (name : String) : Option ZipEntry :=
  z.entries.reverse.find? (fun e => e.filename == name)

/-- Filesystem oracle: existence of paths, `os.walk` (as the ordered list of
`(root, files)` pairs it yields; the `dirs` component is never used by the
source), `os.stat` modification times already decomposed by
`datetime.fromtimestamp` (`none` models `OSError`), and text reads
(`Except.error e` models any exception raised by `open`/`read`). -/
structure FS where
  pathExists : String → Bool
  walk : String → List (String × List String)
  mtime : String → Option DateTime6
  readText : String → Except String String

/-- Create a directory (`tempfile.mkdtemp` / `os.makedirs`). -/
def FS.addDir (fs : FS) (d : String) : FS :=
  { fs with pathExists := fun p => p == d || fs.pathExists p }

/-- `shutil.rmtree d`: the directory and everything below it stop existing
and are no longer walked.  (`mtime`/`readText` oracles are left in place;
no operation of the source consults them after cleanup.) -/
def FS.removeTree (fs : FS) (d : String) : FS :=
  { fs with
    pathExists := fun p =>
      if p == d || strStartsWith p (d ++ "/") then false else fs.pathExists p,
    walk := fun r =>
      if r == d || strStartsWith r (d ++ "/") then [] else fs.walk r }

/-- Environment oracle for one run: the initial filesystem, the filesystem
that a successful `extractall` produces, `zipfile.is_zipfile`, the fresh
directory name `tempfile.mkdtemp` returns, the result of opening the archive
(`none` models `BadZipFile` raised on open), the outcome of `extractall`
(`none` = success, `some none` = `BadZipFile`, `some (some e)` = another
exception with message `e`), and the outcome of `shutil.rmtree`
(`none` = success, `some e` = exception with message `e`). -/
structure World where
  fs0 : FS
  fs1 : FS
  is_zipfile : String → Bool
  mkdtempName : String
  zipOpen : Option ZipFile
  extractallErr : Option (Option String)
  rmtreeErr : Option String

/-- The mutable state of an `XMLValidator` instance. -/
structure Validator where
  zip_path : String
  extract_to : Option String
  extracted_files : List String
  extract_folder : Option String
deriving Repr, DecidableEq

/-- `XMLValidator.__init__`. -/
def Validator.init (zip_path : String) (extract_to : Option String) : Validator :=
  { zip_path := zip_path, extract_to := extract_to,
    extracted_files := [], extract_folder := none }

/-- `XMLValidator.validate_zip` (source lines 30-43). -/
def validate_zip (w : World) (v : Validator) : Bool × String :=
  if !(w.fs0.pathExists v.zip_path) then
    (false, "Zip file '" ++ v.zip_path ++ "' not found.")
  else if !(w.is_zipfile v.zip_path) then
    (false, "'" ++ v.zip_path ++ "' is not a valid zip file.")
  else
    (true, "")

/-- `XMLValidator.extract_zip` (source lines 45-75): re-validate, create the
extraction directory (caller-supplied `extract_to` or a fresh temp
directory), open and unpack the archive, record `namelist()`.  Returns the
`(success, message, files)` triple together with the updated instance state
and filesystem. -/
def extract_zip (w : World) (v : Validator) :
    (Bool × String × List String) × Validator × FS :=
  let vres := validate_zip w v
  if !vres.1 then ((false, vres.2, []), v, w.fs0)
  else
    let folder := match v.extract_to with
      | some d => d
      | none => w.mkdtempName
    let v1 : Validator := { v with extract_folder := some folder }
    let fs := w.fs0.addDir folder
    match w.zipOpen with
    | none => ((false, "Invalid or corrupted zip file.", []), v1, fs)
    | some z =>
      match w.extractallErr with
      | some none => ((false, "Invalid or corrupted zip file.", []), v1, fs)
      | some (some e) =>
          ((false, "Error extracting zip file: " ++ e, []), v1, fs)
      | none =>
        let v2 : Validator := { v1 with extracted_files := z.namelist }
        ((true, "Files extracted to: '" ++ folder ++ "'", z.namelist), v2, w.fs1)

/-- `XMLValidator.find_xml_files` (source lines 77-93): empty if no
extraction folder is recorded or it no longer exists; otherwise walk it and
collect `os.path.join root file` for every file whose lowercased name ends
in `.xml`, in traversal order. -/
def find_xml_files (fs : FS) (v : Validator) : List String :=
  match v.extract_folder with
  | none => []
  | some folder =>
    if !(fs.pathExists folder) then []
    else
      (fs.walk folder).flatMap (fun rf =>
        (rf.2.filter (fun file => strEndsWith (strToLower file) ".xml")).map
          (fun file => joinPath rf.1 file))

/-- The entry-matching loop of `get_xml_file_timestamps`
(source lines 120-132): scan `namelist` in archive order; for each entry
first test exact normalized equality or normalized suffix (`break`), then
basename equality (`break`); the first entry passing any test is returned. -/
def findZipEntry (namelist : List String) (rel_path : String) : Option String :=
  match namelist with
  | [] => none
  | entry_name :: rest =>
    let normalized_entry := normalizePath entry_name
    let normalized_rel := normalizePath rel_path
    if normalized_entry == normalized_rel ||
        strEndsWith normalized_entry ("/" ++ normalized_rel) then
      some entry_name
    else if basename normalized_entry == basename normalized_rel then
      some entry_name
    else
      findZipEntry rest rel_path

/-- Filesystem-timestamp fallback (source lines 142-147 and 150-155):
`os.stat` + `fromtimestamp` + `strftime`, or the sentinel on `OSError`. -/
def fsTimestamp (fs : FS) (p : String) : String :=
  match fs.mtime p with
  | some t => fmtDateTime t
  | none => "Unknown"

/-- Timestamp for one extracted XML file (source lines 114-155): locate a
zip entry for its relative path; decode its `date_time` if possible,
otherwise fall back to the filesystem timestamp (also when no entry
matches). -/
def timestampForFile (fs : FS) (z : ZipFile) (folder : String)
    (xml_path : String) : String :=
  let rel_path := relpath xml_path folder
  match findZipEntry z.namelist rel_path with
  | some zip_entry =>
    match z.getinfo zip_entry with
    | some zip_info =>
      if validDateTime zip_info.date_time then fmtDateTime zip_info.date_time
      else fsTimestamp fs xml_path
    | none => fsTimestamp fs xml_path
  | none => fsTimestamp fs xml_path

/-- `XMLValidator.get_xml_file_timestamps` (source lines 95-159): empty if
the archive path does not exist; if opening the archive raises, the
exception is caught, a warning printed and the (still empty) mapping
returned; otherwise one entry per file of `find_xml_files`, in that order.
The Python dict (string keys, insertion order) is an association list. -/
def get_xml_file_timestamps (w : World) (fs : FS) (v : Validator) :
    List (String × String) :=
  if !(fs.pathExists v.zip_path) then []
  else
    match w.zipOpen with
    | none => []
    | some z =>
      let xml_files := find_xml_files fs v
      xml_files.map (fun xml_path =>
        (xml_path,
         timestampForFile fs z (v.extract_folder.getD "") xml_path))

/-- The search loop of `read_xml_file` (source lines 183-189): first root in
walk order containing a file whose name equals the requested name or ends
with it; the path joined from that root and file. -/
def walkFindFile (walkList : List (String × List String))
    (xml_filename : String) : Option String :=
  match walkList with
  | [] => none
  | (root, files) :: rest =>
    match files.find? (fun file =>
        file == xml_filename || strEndsWith file xml_filename) with
    | some file => some (joinPath root file)
    | none => walkFindFile rest xml_filename

/-- Target resolution of `read_xml_file` (source lines 175-189): try the
requested name directly under the extraction folder; if that path does not
exist, search the walk. -/
def resolveTarget (fs : FS) (folder xml_filename : String) : Option String :=
  let direct_path := joinPath folder xml_filename
  if fs.pathExists direct_path then some direct_path
  else walkFindFile (fs.walk folder) xml_filename

/-- `XMLValidator.read_xml_file` (source lines 161-200): fail if nothing was
extracted; resolve the requested name (direct path, then walk search); read
the resolved file as text and return its basename as the actual filename. -/
def read_xml_file (fs : FS) (v : Validator) (xml_filename : String) :
    Bool × String × Option String × Option String :=
  match v.extract_folder with
  | none =>
    (false, "No extraction folder. Please extract zip file first.", none, none)
  | some folder =>
    match resolveTarget fs folder xml_filename with
    | none =>
      (false, "File '" ++ xml_filename ++ "' not found in extracted folder.",
       none, none)
    | some target_path =>
      if !(fs.pathExists target_path) then
        (false, "File '" ++ xml_filename ++ "' not found in extracted folder.",
         none, none)
      else
        match fs.readText target_path with
        | Except.ok content =>
          (true, "Successfully read '" ++ xml_filename ++ "'",
           some content, some (basename target_path))
        | Except.error e =>
          (false, "Error reading file: " ++ e, none, none)

/-- `XMLValidator.cleanup` (source lines 202-209): delete the extraction
folder tree only when one is recorded, `extract_to` was not supplied by the
caller, and the folder still exists; an `rmtree` failure is caught and
reported as a warning (second component), never raised. -/
def cleanup (w : World) (fs : FS) (v : Validator) : FS × Option String :=
  match v.extract_folder with
  | none => (fs, none)
  | some folder =>
    match v.extract_to with
    | some _ => (fs, none)
    | none =>
      if fs.pathExists folder then
        match w.rmtreeErr with
        | none => (fs.removeTree folder, none)
        | some e =>
          (fs, some ("Warning: Could not cleanup temp directory: " ++ e))
      else (fs, none)

/-- The result dictionary built by `process_zip` (source lines 221-229). -/
structure WorkflowResult where
  success : Bool
  message : String
  extracted_files : List String
  xml_files : List String
  xml_timestamps : List (String × String)
  xml_content : Option String
  xml_filename : Option String
deriving Repr, DecidableEq

/-- `XMLValidator.process_zip` (source lines 211-270): extract (short-circuit
on failure), find XML files, recover timestamps, then read the target XML
file (or the first found one); a read failure appends its message after
a separator and leaves `success` false. -/
def process_zip (w : World) (v : Validator) (target_xml : Option String) :
    WorkflowResult × Validator × FS :=
  let result0 : WorkflowResult :=
    { success := false, message := "", extracted_files := [], xml_files := [],
      xml_timestamps := [], xml_content := none, xml_filename := target_xml }
  let er := extract_zip w v
  let success := er.1.1
  let message := er.1.2.1
  let files := er.1.2.2
  let v1 := er.2.1
  let fs := er.2.2
  let result1 : WorkflowResult :=
    { result0 with extracted_files := files, message := message }
  if !success then (result1, v1, fs)
  else
    let result2 : WorkflowResult :=
      { result1 with xml_files := find_xml_files fs v1 }
    let result3 : WorkflowResult :=
      { result2 with xml_timestamps := get_xml_file_timestamps w fs v1 }
    match target_xml with
    | some target =>
      let rr := read_xml_file fs v1 target
      let result4 : WorkflowResult :=
        { result3 with xml_content := rr.2.2.1,
                       xml_filename := some (rr.2.2.2.getD target) }
      if !rr.1 then
        ({ result4 with message := result4.message ++ " | " ++ rr.2.1 }, v1, fs)
      else
        ({ result4 with success := true }, v1, fs)
    | none =>
      match result3.xml_files with
      | [] => ({ result3 with success := true }, v1, fs)
      | first_xml_path :: _ =>
        let first_xml_filename := basename first_xml_path
        let rr := read_xml_file fs v1 first_xml_filename
        let result4 : WorkflowResult :=
          { result3 with xml_content := rr.2.2.1,
                         xml_filename := some (rr.2.2.2.getD first_xml_filename) }
        if !rr.1 then
          ({ result4 with message := result4.message ++ " | " ++ rr.2.1 }, v1, fs)
        else
          ({ result4 with success := true }, v1, fs)

/-! ### Reference formulations used to state the claims -/

/-- The disjunction of the three matching rules of the entry loop
(exact normalized path, normalized-path suffix, basename equality),
as one predicate over a single entry. -/
def entryMatchesAny (rel_path entry_name : String) : Bool :=
  normalizePath entry_name == normalizePath rel_path ||
  strEndsWith (normalizePath entry_name) ("/" ++ normalizePath rel_path) ||
  basename (normalizePath entry_name) == basename (normalizePath rel_path)

/-- The timestamp the source computes for one file, re-expressed through
`List.find?` over the combined predicate `entryMatchesAny` (to be proved
equal to `timestampForFile`): the first entry in listing order matching by
any of the three rules; its decoded stored time, else the filesystem
fallback, else the sentinel. -/
def chainTimestamp (fs : FS) (z : ZipFile) (folder xml_path : String) : String :=
  match z.namelist.find? (entryMatchesAny (relpath xml_path folder)) with
  | some zip_entry =>
    match z.getinfo zip_entry with
    | some zip_info =>
      if validDateTime zip_info.date_time then fmtDateTime zip_info.date_time
      else fsTimestamp fs xml_path
    | none => fsTimestamp fs xml_path
  | none => fsTimestamp fs xml_path

/-- Entry selection as the claim words it (for comparison with
`findZipEntry`): an exact normalized match anywhere in the listing is
preferred over a suffix match anywhere, which is preferred over a basename
match anywhere; within each rule the first entry wins. -/
def findZipEntryClaimed (namelist : List String) (rel_path : String) :
    Option String :=
  let nr := normalizePath rel_path
  match namelist.find? (fun e => normalizePath e == nr) with
  | some e => some e
  | none =>
    match namelist.find? (fun e => strEndsWith (normalizePath e) ("/" ++ nr)) with
    | some e => some e
    | none =>
      namelist.find? (fun e => basename (normalizePath e) == basename nr)

/-! ### Concrete environments used by counterexamples and witnesses -/

/-- Filesystem with an archive at `/a.zip` and one extracted XML file
`/tmp/x/sub/a.xml` below the extraction folder `/tmp/x`. -/
def fsC1 : FS where
  pathExists p := p == "/a.zip" || p == "/tmp/x" || p == "/tmp/x/sub/a.xml"
  walk r := if r == "/tmp/x" then [("/tmp/x/sub", ["a.xml"])] else []
  mtime _ := none
  readText _ := Except.error "unreadable"

/-- Archive whose first entry matches `sub/a.xml` only by basename and whose
second entry matches it exactly, with distinct stored timestamps. -/
def zC1 : ZipFile :=
  { entries := [⟨"dir/b/a.xml", ⟨2021, 5, 6, 7, 8, 9⟩⟩,
                ⟨"sub/a.xml", ⟨2022, 1, 2, 3, 4, 5⟩⟩] }

/-- World for the entry-selection scenario. -/
def wC1 : World where
  fs0 := fsC1
  fs1 := fsC1
  is_zipfile _ := true
  mkdtempName := "/tmp/x"
  zipOpen := some zC1
  extractallErr := none
  rmtreeErr := none

/-- Validator state after extracting `/a.zip` to `/tmp/x`. -/
def vC1 : Validator :=
  { zip_path := "/a.zip", extract_to := none,
    extracted_files := ["dir/b/a.xml", "sub/a.xml"],
    extract_folder := some "/tmp/x" }

/-- Filesystem with nothing on it. -/
def fsEmpty : FS where
  pathExists _ := false
  walk _ := []
  mtime _ := none
  readText _ := Except.error "io"

/-- Filesystem with an archive at `/a.zip` and an (empty) extraction
folder `/t`. -/
def fsE : FS where
  pathExists p := p == "/a.zip" || p == "/t"
  walk _ := []
  mtime _ := none
  readText _ := Except.error "io"

/-- An archive with a single non-XML member. -/
def zE : ZipFile := { entries := [⟨"readme.txt", ⟨2020, 1, 1, 0, 0, 0⟩⟩] }

/-- World in which validation and extraction of `/a.zip` succeed and the
extraction folder `/t` contains no files. -/
def wE : World where
  fs0 := fsE
  fs1 := fsE
  is_zipfile _ := true
  mkdtempName := "/t"
  zipOpen := some zE
  extractallErr := none
  rmtreeErr := none

/-- Fresh validator bound to `/a.zip`, no caller-supplied directory. -/
def vE : Validator := Validator.init "/a.zip" none

/-- `wC1` with the archive failing to open. -/
def wBadZip : World := { wC1 with zipOpen := none }

/-- `wE` with `extractall` raising `BadZipFile` (corrupted archive). -/
def wCorrupt : World := { wE with zipOpen := none }

/-- Extraction folder `/r` holding `sub/a.xml` and `sub2/ba.xml`, walked
with `sub2` first, so that the loose suffix rule can pick `ba.xml` when
`a.xml` is requested. -/
def fsC5 : FS where
  pathExists p := p == "/r" || p == "/r/sub/a.xml" || p == "/r/sub2/ba.xml"
  walk r := if r == "/r" then [("/r/sub2", ["ba.xml"]), ("/r/sub", ["a.xml"])]
            else []
  mtime _ := none
  readText p := if p == "/r/sub/a.xml" then Except.ok "A"
                else if p == "/r/sub2/ba.xml" then Except.ok "B"
                else Except.error "io"

/-- Validator whose extraction folder is `/r`. -/
def vC5 : Validator :=
  { zip_path := "/a.zip", extract_to := none, extracted_files := [],
    extract_folder := some "/r" }

/-- Extraction folder `/r` holding only `sub/a.xml` (no ambiguity). -/
def fsC5b : FS where
  pathExists p := p == "/r" || p == "/r/sub/a.xml"
  walk r := if r == "/r" then [("/r/sub", ["a.xml"])] else []
  mtime _ := none
  readText p := if p == "/r/sub/a.xml" then Except.ok "A" else Except.error "io"

/-- Validator with a caller-supplied extraction directory `/d`. -/
def vCaller : Validator :=
  { zip_path := "/a.zip", extract_to := some "/d", extracted_files := [],
    extract_folder := some "/d" }

/-- Validator that created its own extraction directory `/t`. -/
def vOwn : Validator :=
  { zip_path := "/a.zip", extract_to := none, extracted_files := [],
    extract_folder := some "/t" }

/-- World for an archive path that does not exist. -/
def wMissing : World where
  fs0 := fsEmpty
  fs1 := fsEmpty
  is_zipfile _ := true
  mkdtempName := "/t"
  zipOpen := none
  extractallErr := none
  rmtreeErr := none

/-- World where `/a.zip` exists but is not structurally a zip file. -/
def wNotZip : World := { wE with is_zipfile := fun _ => false }

/-! ### Helper lemmas -/

/-- The two-test-per-entry loop of the source equals a single scan with the
disjunction of the three rules: whichever rule fires, the `break` happens at
the first entry satisfying any of them. -/
theorem findZipEntry_eq_find (namelist : List String) (rel : String) :
    findZipEntry namelist rel = namelist.find? (entryMatchesAny rel) := by
  induction namelist with
  | nil => rfl
  | cons e rest ih =>
    cases hA : (normalizePath e == normalizePath rel) <;>
      cases hB : strEndsWith (normalizePath e) ("/" ++ normalizePath rel) <;>
        cases hC : (basename (normalizePath e) == basename (normalizePath rel)) <;>
          simp [findZipEntry, List.find?, entryMatchesAny, hA, hB, hC, ih]

theorem str_append_ne_empty_left (a b : String) (h : a ≠ "") : a ++ b ≠ "" := by
  intro hab
  apply h
  have hd : a.data ++ b.data = [] := congrArg String.data hab
  rcases List.append_eq_nil.mp hd with ⟨ha, _⟩
  cases a
  simp_all

/-! ### C1 -/

/-- C1 (counterexample): with archive listing
`["dir/b/a.xml", "sub/a.xml"]` and extracted file `sub/a.xml`, the claimed
precedence (exact match anywhere beats basename match anywhere) selects the
exact entry `sub/a.xml`, whose valid stored timestamp would display as
`2022-01-02 03:04:05`; the code instead records `2021-05-06 07:08:09`, the
timestamp of the earlier entry `dir/b/a.xml`, which matches only by
basename. -/
theorem recover_timestamps_precedence_counterexample :
    get_xml_file_timestamps wC1 fsC1 vC1
        = [("/tmp/x/sub/a.xml", "2021-05-06 07:08:09")] ∧
    findZipEntryClaimed zC1.namelist
        (relpath "/tmp/x/sub/a.xml" "/tmp/x") = some "sub/a.xml" ∧
    zC1.getinfo "sub/a.xml"
        = some ⟨"sub/a.xml", ⟨2022, 1, 2, 3, 4, 5⟩⟩ ∧
    validDateTime ⟨2022, 1, 2, 3, 4, 5⟩ = true ∧
    fmtDateTime ⟨2022, 1, 2, 3, 4, 5⟩ = "2022-01-02 03:04:05" ∧
    ("2021-05-06 07:08:09" : String) ≠ "2022-01-02 03:04:05" := by
  decide

/-- C1 (amended): for every matching file, the code selects the first
archive entry in listing order that matches the file's normalized relative
path exactly, as a normalized-path suffix, **or** by basename equality —
the three rules are tested entry by entry with no precedence between rules
across the listing — and the selected entry's stored timestamp is formatted
as `YYYY-MM-DD HH:MM:SS`, falling back to the file's on-disk modification
time if decoding fails or no entry matches, and to `Unknown` if that also
fails (the fallback chain is `chainTimestamp`). -/
theorem recover_timestamps_entry_selection
    (w : World) (fs : FS) (v : Validator) (z : ZipFile) (folder : String)
    (hz : w.zipOpen = some z) (hex : fs.pathExists v.zip_path = true)
    (hf : v.extract_folder = some folder) :
    get_xml_file_timestamps w fs v =
      (find_xml_files fs v).map (fun p => (p, chainTimestamp fs z folder p)) := by
  simp only [get_xml_file_timestamps, hz, hex, hf, Bool.not_true,
    Bool.false_eq_true, if_false, Option.getD_some]
  apply List.map_congr_left
  intro p _
  simp only [timestampForFile, chainTimestamp, findZipEntry_eq_find]

/-- Witness for `recover_timestamps_entry_selection` at the concrete
scenario `wC1`/`fsC1`/`vC1`. -/
theorem recover_timestamps_entry_selection_witness :
    wC1.zipOpen = some zC1 ∧ fsC1.pathExists vC1.zip_path = true ∧
    vC1.extract_folder = some "/tmp/x" ∧
    get_xml_file_timestamps wC1 fsC1 vC1 =
      (find_xml_files fsC1 vC1).map
        (fun p => (p, chainTimestamp fsC1 zC1 "/tmp/x" p)) :=
  ⟨rfl, by decide, rfl,
   recover_timestamps_entry_selection wC1 fsC1 vC1 zC1 "/tmp/x" rfl (by decide) rfl⟩

/-! ### C2 -/

/-- C2: when extraction succeeds but reading the requested target fails,
`process_zip` returns `success = false`, with the read-step message appended
to the extraction message after a `" | "` separator, while the entry
listing, the matching-file list and the timestamp mapping from the earlier
steps remain in the result. -/
theorem workflow_read_failure_preserves_partials
    (w : World) (v : Validator) (target : String)
    (hex : (extract_zip w v).1.1 = true)
    (hrd : (read_xml_file (extract_zip w v).2.2 (extract_zip w v).2.1 target).1
      = false) :
    (process_zip w v (some target)).1.success = false ∧
    (process_zip w v (some target)).1.message =
      (extract_zip w v).1.2.1 ++ " | " ++
        (read_xml_file (extract_zip w v).2.2 (extract_zip w v).2.1 target).2.1 ∧
    (process_zip w v (some target)).1.extracted_files
      = (extract_zip w v).1.2.2 ∧
    (process_zip w v (some target)).1.xml_files
      = find_xml_files (extract_zip w v).2.2 (extract_zip w v).2.1 ∧
    (process_zip w v (some target)).1.xml_timestamps
      = get_xml_file_timestamps w (extract_zip w v).2.2 (extract_zip w v).2.1 := by
  simp [process_zip, hex, hrd]

/-- Witness for `workflow_read_failure_preserves_partials`: `/a.zip`
extracts fine but `missing.xml` is not among the extracted files. -/
theorem workflow_read_failure_preserves_partials_witness :
    (extract_zip wE vE).1.1 = true ∧
    (read_xml_file (extract_zip wE vE).2.2 (extract_zip wE vE).2.1
        "missing.xml").1 = false ∧
    ((process_zip wE vE (some "missing.xml")).1.success = false ∧
     (process_zip wE vE (some "missing.xml")).1.message =
       (extract_zip wE vE).1.2.1 ++ " | " ++
         (read_xml_file (extract_zip wE vE).2.2 (extract_zip wE vE).2.1
           "missing.xml").2.1 ∧
     (process_zip wE vE (some "missing.xml")).1.extracted_files
       = (extract_zip wE vE).1.2.2 ∧
     (process_zip wE vE (some "missing.xml")).1.xml_files
       = find_xml_files (extract_zip wE vE).2.2 (extract_zip wE vE).2.1 ∧
     (process_zip wE vE (some "missing.xml")).1.xml_timestamps
       = get_xml_file_timestamps wE (extract_zip wE vE).2.2
           (extract_zip wE vE).2.1) :=
  ⟨by decide, by decide,
   workflow_read_failure_preserves_partials wE vE "missing.xml"
     (by decide) (by decide)⟩

/-! ### C9 -/

/-- C9: for a valid archive with zero matching-format files, `process_zip`
with no target returns `success = true` and absent content. -/
theorem workflow_no_target_empty_success
    (w : World) (v : Validator)
    (hex : (extract_zip w v).1.1 = true)
    (hxml : find_xml_files (extract_zip w v).2.2 (extract_zip w v).2.1 = []) :
    (process_zip w v none).1.success = true ∧
    (process_zip w v none).1.xml_content = none ∧
    (process_zip w v none).1.xml_filename = none := by
  simp [process_zip, hex, hxml]

/-- Witness for `workflow_no_target_empty_success`: `/a.zip` extracts to
`/t`, which holds no XML file. -/
theorem workflow_no_target_empty_success_witness :
    (extract_zip wE vE).1.1 = true ∧
    find_xml_files (extract_zip wE vE).2.2 (extract_zip wE vE).2.1 = [] ∧
    ((process_zip wE vE none).1.success = true ∧
     (process_zip wE vE none).1.xml_content = none ∧
     (process_zip wE vE none).1.xml_filename = none) :=
  ⟨by decide, by decide,
   workflow_no_target_empty_success wE vE (by decide) (by decide)⟩

/-! ### C3 -/

theorem timestampForFile_cases (fs : FS) (z : ZipFile) (folder p : String) :
    timestampForFile fs z folder p = "Unknown" ∨
      ∃ t : DateTime6, timestampForFile fs z folder p = fmtDateTime t := by
  have hfs : fsTimestamp fs p = "Unknown" ∨
      ∃ t : DateTime6, fsTimestamp fs p = fmtDateTime t := by
    unfold fsTimestamp
    cases fs.mtime p with
    | none => exact Or.inl rfl
    | some t => exact Or.inr ⟨t, rfl⟩
  rcases hef : findZipEntry z.namelist (relpath p folder) with _ | e
  · simpa [timestampForFile, hef] using hfs
  · rcases heg : z.getinfo e with _ | zi
    · simpa [timestampForFile, hef, heg] using hfs
    · cases hv : validDateTime zi.date_time with
      | true =>
        exact Or.inr ⟨zi.date_time, by simp [timestampForFile, hef, heg, hv]⟩
      | false => simpa [timestampForFile, hef, heg, hv] using hfs

/-- C3: `get_xml_file_timestamps` is a total function (the embedding of the
operation never raising); a missing archive path or a failure to open the
archive degrades to the empty mapping, and every recorded value is either a
decoded timestamp, a decoded filesystem fallback, or the `Unknown`
sentinel. -/
theorem recover_timestamps_never_raises
    (w : World) (fs : FS) (v : Validator) :
    (fs.pathExists v.zip_path = false → get_xml_file_timestamps w fs v = []) ∧
    (w.zipOpen = none → get_xml_file_timestamps w fs v = []) ∧
    (∀ pr ∈ get_xml_file_timestamps w fs v,
      pr.2 = "Unknown" ∨ ∃ t : DateTime6, pr.2 = fmtDateTime t) := by
  refine ⟨fun h => by simp [get_xml_file_timestamps, h], fun h => ?_, ?_⟩
  · cases hp : fs.pathExists v.zip_path <;>
      simp [get_xml_file_timestamps, h, hp]
  · intro pr hpr
    cases hp : fs.pathExists v.zip_path with
    | false => simp [get_xml_file_timestamps, hp] at hpr
    | true =>
      cases hz : w.zipOpen with
      | none => simp [get_xml_file_timestamps, hp, hz] at hpr
      | some z =>
        simp only [get_xml_file_timestamps, hp, hz, Bool.not_true,
          Bool.false_eq_true, if_false, List.mem_map] at hpr
        obtain ⟨p, _, rfl⟩ := hpr
        exact timestampForFile_cases fs z (v.extract_folder.getD "") p

/-- Witness for `recover_timestamps_never_raises`: the open-failure conjunct
at `wBadZip` and the per-file conjunct at the concrete mapping of `wC1`. -/
theorem recover_timestamps_never_raises_witness :
    (wBadZip.zipOpen = none ∧ get_xml_file_timestamps wBadZip fsC1 vC1 = []) ∧
    (("/tmp/x/sub/a.xml", "2021-05-06 07:08:09")
        ∈ get_xml_file_timestamps wC1 fsC1 vC1 ∧
      ((("/tmp/x/sub/a.xml", "2021-05-06 07:08:09") : String × String).2
          = "Unknown" ∨
        ∃ t : DateTime6,
          (("/tmp/x/sub/a.xml", "2021-05-06 07:08:09") : String × String).2
            = fmtDateTime t)) :=
  ⟨⟨rfl, (recover_timestamps_never_raises wBadZip fsC1 vC1).2.1 rfl⟩,
   ⟨by decide,
    (recover_timestamps_never_raises wC1 fsC1 vC1).2.2 _ (by decide)⟩⟩

/-! ### C4 -/

theorem extract_zip_msg_ne_empty (w : World) (v : Validator) :
    (extract_zip w v).1.2.1 ≠ "" := by
  cases hp : w.fs0.pathExists v.zip_path with
  | false =>
    simp [extract_zip, validate_zip, hp]
    exact str_append_ne_empty_left _ _
      (str_append_ne_empty_left _ _ (by decide))
  | true =>
    cases hzf : w.is_zipfile v.zip_path with
    | false =>
      simp [extract_zip, validate_zip, hp, hzf]
      exact str_append_ne_empty_left _ _
        (str_append_ne_empty_left _ _ (by decide))
    | true =>
      cases hz : w.zipOpen with
      | none => simp [extract_zip, validate_zip, hp, hzf, hz]
      | some z =>
        cases he : w.extractallErr with
        | none =>
          simp [extract_zip, validate_zip, hp, hzf, hz, he]
          exact str_append_ne_empty_left _ _
            (str_append_ne_empty_left _ _ (by decide))
        | some o =>
          cases o with
          | none => simp [extract_zip, validate_zip, hp, hzf, hz, he]
          | some e =>
            simp [extract_zip, validate_zip, hp, hzf, hz, he]
            exact str_append_ne_empty_left _ _ (by decide)

/-- C4: `process_zip` is a total function returning a structured
`WorkflowResult` (the embedding of never raising across the component
boundary); whenever it reports failure the message is a non-empty
description, and internal zip exceptions surface as the corresponding
failure messages inside the result. -/
theorem workflow_structured_result
    (w : World) (v : Validator) (t : Option String) :
    ((process_zip w v t).1.success = true ∨
      (process_zip w v t).1.message ≠ "") ∧
    ((validate_zip w v).1 = true → w.zipOpen = none →
      (process_zip w v t).1.success = false ∧
      (process_zip w v t).1.message = "Invalid or corrupted zip file.") ∧
    (∀ e, (validate_zip w v).1 = true → w.extractallErr = some (some e) →
      (process_zip w v t).1.success = false ∧
      ((process_zip w v t).1.message = "Error extracting zip file: " ++ e ∨
        (process_zip w v t).1.message = "Invalid or corrupted zip file.")) := by
  refine ⟨?_, ?_, ?_⟩
  · cases hex : (extract_zip w v).1.1 with
    | false =>
      right
      simpa [process_zip, hex] using extract_zip_msg_ne_empty w v
    | true =>
      have hmsg := extract_zip_msg_ne_empty w v
      cases t with
      | some target =>
        cases hrd : (read_xml_file (extract_zip w v).2.2 (extract_zip w v).2.1
            target).1 with
        | true => left; simp [process_zip, hex, hrd]
        | false =>
          right
          simp only [process_zip, hex, hrd, Bool.not_true, Bool.not_false,
            Bool.false_eq_true, if_false, if_true]
          exact str_append_ne_empty_left _ _
            (str_append_ne_empty_left _ _ hmsg)
      | none =>
        cases hxml : find_xml_files (extract_zip w v).2.2
            (extract_zip w v).2.1 with
        | nil => left; simp [process_zip, hex, hxml]
        | cons a l =>
          cases hrd : (read_xml_file (extract_zip w v).2.2
              (extract_zip w v).2.1 (basename a)).1 with
          | true => left; simp [process_zip, hex, hxml, hrd]
          | false =>
            right
            simp only [process_zip, hex, hxml, hrd, Bool.not_true,
              Bool.not_false, Bool.false_eq_true, if_false, if_true]
            exact str_append_ne_empty_left _ _
              (str_append_ne_empty_left _ _ hmsg)
  · intro hv hz
    have h1 : (extract_zip w v).1 = (false, "Invalid or corrupted zip file.", [])
      := by simp [extract_zip, hv, hz]
    constructor <;> simp [process_zip, h1]
  · intro e hv he
    cases hz : w.zipOpen with
    | none =>
      have h1 : (extract_zip w v).1
          = (false, "Invalid or corrupted zip file.", []) := by
        simp [extract_zip, hv, hz]
      exact ⟨by simp [process_zip, h1], Or.inr (by simp [process_zip, h1])⟩
    | some z =>
      have h1 : (extract_zip w v).1
          = (false, "Error extracting zip file: " ++ e, []) := by
        simp [extract_zip, hv, hz, he]
      exact ⟨by simp [process_zip, h1], Or.inl (by simp [process_zip, h1])⟩

/-- Witness for `workflow_structured_result`: the missing-archive world for
the non-empty-message conjunct and the corrupted-archive world for the
exception-to-message conjunct. -/
theorem workflow_structured_result_witness :
    ((process_zip wMissing vE none).1.success = true ∨
      (process_zip wMissing vE none).1.message ≠ "") ∧
    ((validate_zip wCorrupt vE).1 = true ∧ wCorrupt.zipOpen = none ∧
      ((process_zip wCorrupt vE none).1.success = false ∧
       (process_zip wCorrupt vE none).1.message
         = "Invalid or corrupted zip file.")) :=
  ⟨(workflow_structured_result wMissing vE none).1,
   ⟨by decide, rfl,
    (workflow_structured_result wCorrupt vE none).2.1 (by decide) rfl⟩⟩

/-! ### C5 -/

/-- C5 (counterexample): in `fsC5` the file `/r/sub/a.xml` has exact
relative path `sub/a.xml` and bare filename `a.xml`, yet the two requests do
not resolve identically: the exact path reads `/r/sub/a.xml` (content `A`,
resolved name `a.xml`) while the bare filename suffix-matches the earlier
walk entry `ba.xml` and reads `/r/sub2/ba.xml` (content `B`, resolved name
`ba.xml`). -/
theorem read_resolution_counterexample :
    (read_xml_file fsC5 vC5 "sub/a.xml").2.2.1 = some "A" ∧
    (read_xml_file fsC5 vC5 "sub/a.xml").2.2.2 = some "a.xml" ∧
    (read_xml_file fsC5 vC5 "a.xml").2.2.1 = some "B" ∧
    (read_xml_file fsC5 vC5 "a.xml").2.2.2 = some "ba.xml" ∧
    (some "A" : Option String) ≠ some "B" := by
  decide

/-- C5 (amended): `read_xml_file` resolves a requested name by first
checking it as a path relative to the scratch root and, only if that path
does not exist, accepting the first file in walk order whose name equals
the requested name or ends with it; on success the returned resolved name
is the base filename of the file actually read; and the exact relative path
and the bare filename of the same underlying file resolve identically
**provided** the bare filename does not name an existing path directly under
the scratch root and the first walk match for the bare filename is that
same file. -/
theorem read_resolution_amended :
    (∀ (fs : FS) (v : Validator) (folder name p c : String),
      v.extract_folder = some folder →
      resolveTarget fs folder name = some p →
      fs.pathExists p = true →
      fs.readText p = Except.ok c →
      read_xml_file fs v name
        = (true, "Successfully read '" ++ name ++ "'", some c,
           some (basename p))) ∧
    (∀ (fs : FS) (v : Validator) (folder rel : String),
      v.extract_folder = some folder →
      fs.pathExists (joinPath folder rel) = true →
      fs.pathExists (joinPath folder (basename rel)) = false →
      walkFindFile (fs.walk folder) (basename rel)
        = some (joinPath folder rel) →
      ((read_xml_file fs v (basename rel)).1 = (read_xml_file fs v rel).1 ∧
       (read_xml_file fs v (basename rel)).2.2
         = (read_xml_file fs v rel).2.2)) := by
  constructor
  · intro fs v folder name p c hf hr hp hc
    simp [read_xml_file, hf, hr, hp, hc]
  · intro fs v folder rel hf hdir hbare hwalk
    simp only [read_xml_file, hf, resolveTarget, hdir, hbare, hwalk,
      Bool.not_true, Bool.false_eq_true, if_false, if_true]
    cases fs.readText (joinPath folder rel) <;> simp

/-- Witness for `read_resolution_amended`: the success conjunct at
`fsC5` reading `sub/a.xml`, and the identical-resolution conjunct at the
unambiguous filesystem `fsC5b`. -/
theorem read_resolution_amended_witness :
    (vC5.extract_folder = some "/r" ∧
     resolveTarget fsC5 "/r" "sub/a.xml" = some "/r/sub/a.xml" ∧
     fsC5.pathExists "/r/sub/a.xml" = true ∧
     fsC5.readText "/r/sub/a.xml" = Except.ok "A" ∧
     read_xml_file fsC5 vC5 "sub/a.xml"
       = (true, "Successfully read '" ++ "sub/a.xml" ++ "'", some "A",
          some (basename "/r/sub/a.xml"))) ∧
    (fsC5b.pathExists (joinPath "/r" "sub/a.xml") = true ∧
     fsC5b.pathExists (joinPath "/r" (basename "sub/a.xml")) = false ∧
     walkFindFile (fsC5b.walk "/r") (basename "sub/a.xml")
       = some (joinPath "/r" "sub/a.xml") ∧
     ((read_xml_file fsC5b vC5 (basename "sub/a.xml")).1
        = (read_xml_file fsC5b vC5 "sub/a.xml").1 ∧
      (read_xml_file fsC5b vC5 (basename "sub/a.xml")).2.2
        = (read_xml_file fsC5b vC5 "sub/a.xml").2.2)) :=
  ⟨⟨rfl, by decide, by decide, by rfl,
    read_resolution_amended.1 fsC5 vC5 "/r" "sub/a.xml" "/r/sub/a.xml" "A"
      rfl (by decide) (by decide) (by rfl)⟩,
   ⟨by decide, by decide, by decide,
    read_resolution_amended.2 fsC5b vC5 "/r" "sub/a.xml"
      rfl (by decide) (by decide) (by decide)⟩⟩

/-! ### C6 -/

theorem removeTree_pathExists_self (fs : FS) (d : String) :
    (fs.removeTree d).pathExists d = false := by
  simp [FS.removeTree]

/-- C6: `cleanup` never touches a caller-supplied extraction directory,
does nothing when no scratch directory is recorded or it is already gone,
deletes the scratch tree exactly when the component created it itself,
reports an `rmtree` failure as a warning instead of raising, and is
idempotent: a second call after a successful one changes nothing. -/
theorem cleanup_spec :
    (∀ (w : World) (fs : FS) (v : Validator) (d : String),
      v.extract_to = some d → cleanup w fs v = (fs, none)) ∧
    (∀ (w : World) (fs : FS) (v : Validator),
      v.extract_folder = none → cleanup w fs v = (fs, none)) ∧
    (∀ (w : World) (fs : FS) (v : Validator) (folder : String),
      v.extract_folder = some folder → fs.pathExists folder = false →
      cleanup w fs v = (fs, none)) ∧
    (∀ (w : World) (fs : FS) (v : Validator) (folder : String),
      v.extract_folder = some folder → v.extract_to = none →
      fs.pathExists folder = true → w.rmtreeErr = none →
      cleanup w fs v = (fs.removeTree folder, none)) ∧
    (∀ (w : World) (fs : FS) (v : Validator) (folder e : String),
      v.extract_folder = some folder → v.extract_to = none →
      fs.pathExists folder = true → w.rmtreeErr = some e →
      cleanup w fs v
        = (fs, some ("Warning: Could not cleanup temp directory: " ++ e))) ∧
    (∀ (w : World) (fs : FS) (v : Validator),
      w.rmtreeErr = none →
      cleanup w (cleanup w fs v).1 v = ((cleanup w fs v).1, none)) := by
  refine ⟨?_, ?_, ?_, ?_, ?_, ?_⟩
  · intro w fs v d h
    rcases hf : v.extract_folder with _ | folder <;> simp [cleanup, hf, h]
  · intro w fs v h
    simp [cleanup, h]
  · intro w fs v folder hf hp
    rcases ht : v.extract_to with _ | d <;> simp [cleanup, hf, ht, hp]
  · intro w fs v folder hf ht hp hrm
    simp [cleanup, hf, ht, hp, hrm]
  · intro w fs v folder e hf ht hp hrm
    simp [cleanup, hf, ht, hp, hrm]
  · intro w fs v hrm
    rcases hf : v.extract_folder with _ | folder
    · simp [cleanup, hf]
    · rcases ht : v.extract_to with _ | d
      · cases hp : fs.pathExists folder with
        | false => simp [cleanup, hf, ht, hp]
        | true => simp [cleanup, hf, ht, hp, hrm, removeTree_pathExists_self]
      · simp [cleanup, hf, ht]

/-- Witness for `cleanup_spec`: caller-supplied `/d` is untouched; the
self-created `/t` is deleted and a second cleanup is a no-op. -/
theorem cleanup_spec_witness :
    (vCaller.extract_to = some "/d" ∧ cleanup wE fsE vCaller = (fsE, none)) ∧
    (vOwn.extract_folder = some "/t" ∧ vOwn.extract_to = none ∧
     fsE.pathExists "/t" = true ∧ wE.rmtreeErr = none ∧
     cleanup wE fsE vOwn = (fsE.removeTree "/t", none)) ∧
    (cleanup wE (cleanup wE fsE vOwn).1 vOwn = ((cleanup wE fsE vOwn).1, none)) :=
  ⟨⟨rfl, cleanup_spec.1 wE fsE vCaller "/d" rfl⟩,
   ⟨rfl, rfl, by decide, rfl,
    cleanup_spec.2.2.2.1 wE fsE vOwn "/t" rfl rfl (by decide) rfl⟩,
   cleanup_spec.2.2.2.2.2 wE fsE vOwn rfl⟩

/-! ### C7 -/

/-- C7: `extract_zip` re-runs validation internally: whenever validation
fails it returns failure with exactly the reason `validate_zip` produces
and an empty listing, leaving the instance state and the filesystem
untouched (no extraction attempted); existence is checked before structural
validity; and on success the entry listing is recorded exactly as the
archive reports it. -/
theorem extract_revalidates :
    (∀ (w : World) (v : Validator),
      (validate_zip w v).1 = false →
      extract_zip w v = ((false, (validate_zip w v).2, []), v, w.fs0)) ∧
    (∀ (w : World) (v : Validator),
      w.fs0.pathExists v.zip_path = false →
      extract_zip w v
        = ((false, "Zip file '" ++ v.zip_path ++ "' not found.", []),
           v, w.fs0)) ∧
    (∀ (w : World) (v : Validator),
      w.fs0.pathExists v.zip_path = true → w.is_zipfile v.zip_path = false →
      extract_zip w v
        = ((false, "'" ++ v.zip_path ++ "' is not a valid zip file.", []),
           v, w.fs0)) ∧
    (∀ (w : World) (v : Validator) (z : ZipFile),
      (validate_zip w v).1 = true → w.zipOpen = some z →
      w.extractallErr = none →
      (extract_zip w v).1.1 = true ∧
      (extract_zip w v).1.2.2 = z.namelist ∧
      (extract_zip w v).2.1.extracted_files = z.namelist) := by
  refine ⟨?_, ?_, ?_, ?_⟩
  · intro w v h
    simp [extract_zip, h]
  · intro w v h
    simp [extract_zip, validate_zip, h]
  · intro w v hp hzf
    simp [extract_zip, validate_zip, hp, hzf]
  · intro w v z hv hz he
    refine ⟨?_, ?_, ?_⟩ <;> simp [extract_zip, hv, hz, he]

/-- Witness for `extract_revalidates`: the missing-archive, not-a-zip and
successful-extraction worlds. -/
theorem extract_revalidates_witness :
    (wMissing.fs0.pathExists vE.zip_path = false ∧
     extract_zip wMissing vE
       = ((false, "Zip file '" ++ "/a.zip" ++ "' not found.", []),
          vE, wMissing.fs0)) ∧
    (wNotZip.fs0.pathExists vE.zip_path = true ∧
     wNotZip.is_zipfile vE.zip_path = false ∧
     extract_zip wNotZip vE
       = ((false, "'" ++ "/a.zip" ++ "' is not a valid zip file.", []),
          vE, wNotZip.fs0)) ∧
    ((validate_zip wE vE).1 = true ∧ wE.zipOpen = some zE ∧
     ((extract_zip wE vE).1.1 = true ∧
      (extract_zip wE vE).1.2.2 = zE.namelist ∧
      (extract_zip wE vE).2.1.extracted_files = zE.namelist)) :=
  ⟨⟨rfl, extract_revalidates.2.1 wMissing vE rfl⟩,
   ⟨by decide, rfl, extract_revalidates.2.2.1 wNotZip vE (by decide) rfl⟩,
   ⟨by decide, rfl, extract_revalidates.2.2.2 wE vE zE (by decide) rfl rfl⟩⟩

/-! ### C8 -/

/-- C8: `find_xml_files` returns the empty list when no extraction folder
is recorded or when the recorded folder no longer exists on disk (and it is
a total function, the embedding of never raising); otherwise a path is in
its result exactly when it is the join of a walked root and a file whose
name, lowercased, ends with `.xml`. -/
theorem find_xml_files_spec :
    (∀ (fs : FS) (v : Validator),
      v.extract_folder = none → find_xml_files fs v = []) ∧
    (∀ (fs : FS) (v : Validator) (f : String),
      v.extract_folder = some f → fs.pathExists f = false →
      find_xml_files fs v = []) ∧
    (∀ (fs : FS) (v : Validator) (f : String),
      v.extract_folder = some f → fs.pathExists f = true →
      ∀ p, p ∈ find_xml_files fs v ↔
        ∃ root files file, (root, files) ∈ fs.walk f ∧ file ∈ files ∧
          strEndsWith (strToLower file) ".xml" = true ∧
          p = joinPath root file) := by
  refine ⟨?_, ?_, ?_⟩
  · intro fs v h
    simp [find_xml_files, h]
  · intro fs v f hf hp
    simp [find_xml_files, hf, hp]
  · intro fs v f hf hp p
    simp only [find_xml_files, hf, hp, Bool.not_true, Bool.false_eq_true,
      if_false, List.mem_flatMap, List.mem_map, List.mem_filter]
    constructor
    · rintro ⟨⟨root, files⟩, hw, file, ⟨hfile, hsuf⟩, rfl⟩
      exact ⟨root, files, file, hw, hfile, hsuf, rfl⟩
    · rintro ⟨root, files, file, hw, hfile, hsuf, rfl⟩
      exact ⟨(root, files), hw, file, ⟨hfile, hsuf⟩, rfl⟩

/-- Witness for `find_xml_files_spec`: before extraction the result is
empty, and at `fsC1` the membership characterization holds for the one
extracted XML file. -/
theorem find_xml_files_spec_witness :
    (vE.extract_folder = none ∧ find_xml_files fsE vE = []) ∧
    (vC1.extract_folder = some "/tmp/x" ∧
     fsC1.pathExists "/tmp/x" = true ∧
     ("/tmp/x/sub/a.xml" ∈ find_xml_files fsC1 vC1 ↔
       ∃ root files file, (root, files) ∈ fsC1.walk "/tmp/x" ∧
         file ∈ files ∧ strEndsWith (strToLower file) ".xml" = true ∧
         "/tmp/x/sub/a.xml" = joinPath root file)) :=
  ⟨⟨rfl, find_xml_files_spec.1 fsE vE rfl⟩,
   ⟨rfl, by decide,
    find_xml_files_spec.2.2 fsC1 vC1 "/tmp/x" rfl (by decide)
      "/tmp/x/sub/a.xml"⟩⟩

/-! ### C10 -/

/-- C10: when validation passes but extraction fails afterwards (the
archive fails to open or `extractall` raises) and the component created its
own temp directory, the failure result still records that scratch directory
in the handle, the directory exists on disk, and a subsequent successful
`cleanup` removes it. -/
theorem failed_extract_records_scratch
    (w : World) (v : Validator)
    (hv : (validate_zip w v).1 = true)
    (hto : v.extract_to = none)
    (hfail : w.zipOpen = none ∨ ∃ e, w.extractallErr = some e) :
    (extract_zip w v).1.1 = false ∧
    (extract_zip w v).2.1.extract_folder = some w.mkdtempName ∧
    (extract_zip w v).2.2.pathExists w.mkdtempName = true ∧
    (w.rmtreeErr = none →
      (cleanup w (extract_zip w v).2.2 (extract_zip w v).2.1).1.pathExists
        w.mkdtempName = false) := by
  have hstate :
      (extract_zip w v).1.1 = false ∧
      (extract_zip w v).2.1
        = { v with extract_folder := some w.mkdtempName } ∧
      (extract_zip w v).2.2 = w.fs0.addDir w.mkdtempName := by
    rcases hfail with hz | ⟨e, he⟩
    · refine ⟨?_, ?_, ?_⟩ <;> simp [extract_zip, hv, hto, hz]
    · rcases hz : w.zipOpen with _ | z
      · refine ⟨?_, ?_, ?_⟩ <;> simp [extract_zip, hv, hto, hz]
      · rcases e with _ | msg <;>
          · refine ⟨?_, ?_, ?_⟩ <;> simp [extract_zip, hv, hto, hz, he]
  obtain ⟨h1, h2, h3⟩ := hstate
  refine ⟨h1, by simp [h2], by simp [h3, FS.addDir], ?_⟩
  intro hrm
  rw [h2, h3]
  simp [cleanup, hto, hrm, FS.addDir, FS.removeTree]

/-- Witness for `failed_extract_records_scratch`: a structurally valid but
unopenable (corrupted) archive in `wCorrupt`. -/
theorem failed_extract_records_scratch_witness :
    ((validate_zip wCorrupt vE).1 = true ∧ vE.extract_to = none ∧
      (wCorrupt.zipOpen = none ∨ ∃ e, wCorrupt.extractallErr = some e)) ∧
    ((extract_zip wCorrupt vE).1.1 = false ∧
     (extract_zip wCorrupt vE).2.1.extract_folder
       = some wCorrupt.mkdtempName ∧
     (extract_zip wCorrupt vE).2.2.pathExists wCorrupt.mkdtempName = true ∧
     (wCorrupt.rmtreeErr = none →
       (cleanup wCorrupt (extract_zip wCorrupt vE).2.2
           (extract_zip wCorrupt vE).2.1).1.pathExists
         wCorrupt.mkdtempName = false)) :=
  ⟨⟨by decide, rfl, Or.inl rfl⟩,
   failed_extract_records_scratch wCorrupt vE (by decide) rfl (Or.inl rfl)⟩

end XMLVal
